import Mathlib

set_option maxRecDepth 100000

/-!
# Verification of the dwm window-manager core (FredeEB/dwm, src/dwm.c)

Shallow embedding of the client/monitor model and the operations named by the
claims: `applysizehints`, `resize`/`resizeclient`, `tile`, `showhide`/`arrange`,
`focus`, `setfullscreen`, `comboview`, `toggleview`/`toggletag`, `zoom`/`pop`,
`configurerequest`, `setmfact`/`incnmaster`/`createmon`.

Conventions of the embedding:
* C `int` is modelled as `Int`; C `unsigned int` values are modelled as `Nat`
  kept below `2^32`, with the conversions and wrap-around of C's integer
  promotions made explicit (`toU`, `toI`, `uadd`, `usub`, `udiv`).
* C `float`/`double` quantities (`mfact`, `mina`, `maxa` and the aspect-ratio
  arithmetic of `applysizehints`) are modelled as exact fractions of integers
  (`Frac`, kept with positive denominator at construction sites);
  float-to-integer assignment truncates toward zero (`ftrunc`), as in C.
* The intrusive `next` list of a monitor is the list `Monitor.clients`
  (tile order); the intrusive `snext` list is `Monitor.stack`, a list of
  client identities (`cid`, standing for the X window handle); `Monitor.sel`
  is an optional client identity.
* X11 calls that do not mutate the model (XMoveWindow, XRaiseWindow,
  XSync, property changes, event sends) are dropped; where a claim is about a
  sent configure event, the send is recorded as a boolean/result value.
* The C macros MIN/MAX are the conditionals `cMIN`/`cMAX`, exactly as the
  macro expands.
-/

/-! ## Compile-time configuration (config section of dwm.c) -/

/-- borderpx = 0 in the configuration. -/
def borderpx : Int := 0

/-- gappx = 10 in the configuration. -/
def gappxConf : Int := 10

/-- Exact fractions standing in for the C `float`/`double` values.  The
    arithmetic below is exact rational arithmetic on unreduced pairs; all
    spec-level quantities (0.55, 0.05, 0.95, 0.5) are exactly representable,
    and cross-multiplied comparisons against a zero denominator (a float
    division by zero) reproduce the IEEE comparisons against an infinity. -/
structure Frac where
  num : Int
  den : Int

/-- Embedding of an integer (a C int converted to float). -/
def fofInt (i : Int) : Frac := ⟨i, 1⟩

/-- Product of fractions. -/
def fmul (a b : Frac) : Frac := ⟨a.num * b.num, a.den * b.den⟩

/-- Sum of fractions. -/
def fadd (a b : Frac) : Frac := ⟨a.num * b.den + b.num * a.den, a.den * b.den⟩

/-- Difference of fractions. -/
def fsub (a b : Frac) : Frac := ⟨a.num * b.den - b.num * a.den, a.den * b.den⟩

/-- Quotient of fractions, sign normalized into the numerator. -/
def fdiv (a b : Frac) : Frac :=
  if a.den * b.num < 0 then ⟨-(a.num * b.den), -(a.den * b.num)⟩
  else ⟨a.num * b.den, a.den * b.num⟩

/-- Comparison `a < b` of fractions (by cross multiplication). -/
def fblt (a b : Frac) : Bool := a.num * b.den < b.num * a.den

/-- Comparison `a <= b` of fractions (by cross multiplication). -/
def fble (a b : Frac) : Bool := a.num * b.den ≤ b.num * a.den

/-- Truncation toward zero, as in a C float-to-integer conversion. -/
def ftrunc (a : Frac) : Int := a.num.tdiv a.den

/-- mfact = 0.55 in the configuration. -/
def mfactConf : Frac := ⟨11, 20⟩

/-- nmaster = 1 in the configuration. -/
def nmasterConf : Int := 1

/-- resizehints = 1 in the configuration. -/
def resizehintsConf : Bool := true

/-- LENGTH(tags) = 9 in the configuration. -/
def tagsLen : Nat := 9

/-- TAGMASK = (1 << LENGTH(tags)) - 1 = 511. -/
def TAGMASK : Nat := (1 <<< tagsLen) - 1

/-! ## C integer conversions -/

/-- Modulus of C `unsigned int`. -/
def U32 : Nat := 4294967296

/-- Conversion of a C `int` value to `unsigned int` (mod 2^32). -/
def toU (i : Int) : Nat := (i % (U32 : Int)).toNat

/-- Conversion of a C `unsigned int` value to `int`
    (wrap-around, as gcc/clang define it). -/
def toI (n : Nat) : Int :=
  if n % U32 < 2147483648 then ((n % U32 : Nat) : Int) else (n % U32 : Int) - (U32 : Int)

/-- Addition of `unsigned int` values. -/
def uadd (a b : Nat) : Nat := (a + b) % U32

/-- Subtraction of `unsigned int` values (wrap-around). -/
def usub (a b : Nat) : Nat := (a % U32 + (U32 - b % U32)) % U32

/-- Division of `unsigned int` values (division by zero is C UB; we pick 0,
    the Lean `Nat.div` default). -/
def udiv (a b : Nat) : Nat := (a % U32) / (b % U32)

/-- Comparison `a < b` of `unsigned int` values. -/
def ult (a b : Nat) : Bool := a % U32 < b % U32

/-- Expansion of the C macro `MAX(A,B) = ((A) > (B) ? (A) : (B))` on ints. -/
def cMAX (a b : Int) : Int := if a > b then a else b

/-- Expansion of the C macro `MIN(A,B) = ((A) < (B) ? (A) : (B))` on ints. -/
def cMIN (a b : Int) : Int := if a < b then a else b

/-! ## Data model -/

/-- The Client record of dwm.c (model-relevant fields).  `cid` stands for the
    X window handle `win`, the identity of the client.  The intrusive `next`
    and `snext` pointers are replaced by the containing lists. -/
structure Client where
  cid : Nat
  x : Int
  y : Int
  w : Int
  h : Int
  oldx : Int
  oldy : Int
  oldw : Int
  oldh : Int
  basew : Int
  baseh : Int
  incw : Int
  inch : Int
  maxw : Int
  maxh : Int
  minw : Int
  minh : Int
  bw : Int
  oldbw : Int
  mina : Frac
  maxa : Frac
  tags : Nat
  isfixed : Bool
  isfloating : Bool
  isurgent : Bool
  neverfocus : Bool
  oldstate : Bool
  isfullscreen : Bool

/-- WIDTH(X) = ((X)->w + 2 * (X)->bw). -/
def WIDTH (c : Client) : Int := c.w + 2 * c.bw

/-- HEIGHT(X) = ((X)->h + 2 * (X)->bw). -/
def HEIGHT (c : Client) : Int := c.h + 2 * c.bw

/-- The Monitor record of dwm.c (model-relevant fields).  `clients` is the
    tile-order list (the `next` chain), `stack` the focus-order list of client
    identities (the `snext` chain), `sel` the selected client's identity. -/
structure Monitor where
  mfact : Frac
  nmaster : Int
  mx : Int
  my : Int
  mw : Int
  mh : Int
  wx : Int
  wy : Int
  ww : Int
  wh : Int
  gappx : Int
  seltags : Bool
  tagset0 : Nat
  tagset1 : Nat
  clients : List Client
  stack : List Nat
  sel : Option Nat

/-- The tagset selected by `seltags`: `m->tagset[m->seltags]`.
    (`seltags` is 0 or 1 in C, toggled by `^= 1`; we model it as a `Bool`.) -/
def Monitor.curtags (m : Monitor) : Nat :=
  if m.seltags then m.tagset1 else m.tagset0

/-- Store into the selected tagset: `m->tagset[m->seltags] = v`. -/
def Monitor.setCurtags (m : Monitor) (v : Nat) : Monitor :=
  if m.seltags then { m with tagset1 := v } else { m with tagset0 := v }

/-- ISVISIBLE(C) = ((C->tags & C->mon->tagset[C->mon->seltags])). -/
def ISVISIBLE (m : Monitor) (c : Client) : Bool :=
  c.tags &&& m.curtags ≠ 0

/-- Globals of dwm.c read by the modelled operations: the display geometry
    `sw`, `sh`, the bar height `bh` (0 when no alternate bar has been adopted)
    and the `resizehints` configuration flag. -/
structure Globals where
  sw : Int
  sh : Int
  bh : Int
  resizehints : Bool

/-- Resolution of a client pointer from an identity: the first client of the
    list whose `cid` matches (pointers are unique in C; model lists with
    duplicate `cid`s never arise from the modelled operations). -/
def findClient (cs : List Client) (cid : Nat) : Option Client :=
  match cs with
  | [] => none
  | c :: rest => if c.cid = cid then some c else findClient rest cid

/-- In-place mutation through a client pointer: rewrite the first client of
    the list whose `cid` matches. -/
def updateClient (cs : List Client) (cid : Nat) (f : Client → Client) : List Client :=
  match cs with
  | [] => []
  | c :: rest => if c.cid = cid then f c :: rest else c :: updateClient rest cid f

/-! ## applysizehints (dwm.c lines 409-457) -/

/-- Result record for `applysizehints`: the adjusted rectangle and the
    changed flag the C function returns. -/
structure ASH where
  x : Int
  y : Int
  w : Int
  h : Int
  changed : Bool

/-- The `interact` branch of the position clamping in `applysizehints`:
      if (*x > sw) *x = sw - WIDTH(c);
      if (*y > sh) *y = sh - HEIGHT(c);
      if (*x + *w + 2 * c->bw < 0) *x = 0;
      if (*y + *h + 2 * c->bw < 0) *y = 0;  -/
def ashClampInteract (g : Globals) (c : Client) (x y w h : Int) : Int × Int :=
  let x := if x > g.sw then g.sw - WIDTH c else x
  let y := if y > g.sh then g.sh - HEIGHT c else y
  let x := if x + w + 2 * c.bw < 0 then 0 else x
  let y := if y + h + 2 * c.bw < 0 then 0 else y
  (x, y)

/-- The non-`interact` branch of the position clamping in `applysizehints`:
      if (*x >= m->wx + m->ww) *x = m->wx + m->ww - WIDTH(c);
      if (*y >= m->wy + m->wh) *y = m->wy + m->wh - HEIGHT(c);
      if (*x + *w + 2 * c->bw <= m->wx) *x = m->wx;
      if (*y + *h + 2 * c->bw <= m->wy) *y = m->wy;  -/
def ashClampTiled (wx wy ww wh : Int) (c : Client) (x y w h : Int) : Int × Int :=
  let x := if x ≥ wx + ww then wx + ww - WIDTH c else x
  let y := if y ≥ wy + wh then wy + wh - HEIGHT c else y
  let x := if x + w + 2 * c.bw ≤ wx then wx else x
  let y := if y + h + 2 * c.bw ≤ wy then wy else y
  (x, y)

/-- The ICCCM block of `applysizehints` (base, aspect, increments, min/max),
    executed when `resizehints || c->isfloating`.  The C floats of the aspect
    step are exact rationals here; float-to-int assignment truncates. -/
def ashHints (c : Client) (w h : Int) : Int × Int :=
  let baseismin : Bool := c.basew = c.minw ∧ c.baseh = c.minh
  let w := if !baseismin then w - c.basew else w
  let h := if !baseismin then h - c.baseh else h
  let wh' :=
    if fblt (fofInt 0) c.mina && fblt (fofInt 0) c.maxa then
      if fblt c.maxa (fdiv (fofInt w) (fofInt h)) then
        (ftrunc (fadd (fmul (fofInt h) c.maxa) ⟨1, 2⟩), h)
      else if fblt c.mina (fdiv (fofInt h) (fofInt w)) then
        (w, ftrunc (fadd (fmul (fofInt w) c.mina) ⟨1, 2⟩))
      else (w, h)
    else (w, h)
  let w := wh'.1
  let h := wh'.2
  let w := if baseismin then w - c.basew else w
  let h := if baseismin then h - c.baseh else h
  let w := if c.incw ≠ 0 then w - Int.tmod w c.incw else w
  let h := if c.inch ≠ 0 then h - Int.tmod h c.inch else h
  let w := cMAX (w + c.basew) c.minw
  let h := cMAX (h + c.baseh) c.minh
  let w := if c.maxw ≠ 0 then cMIN w c.maxw else w
  let h := if c.maxh ≠ 0 then cMIN h c.maxh else h
  (w, h)

/-- applysizehints(c, &x, &y, &w, &h, interact), dwm.c lines 409-457. -/
def applysizehints (g : Globals) (m : Monitor) (c : Client)
    (x y w h : Int) (interact : Bool) : ASH :=
  let w := cMAX 1 w
  let h := cMAX 1 h
  let xy :=
    if interact then ashClampInteract g c x y w h
    else ashClampTiled m.wx m.wy m.ww m.wh c x y w h
  let x := xy.1
  let y := xy.2
  let h := if h < g.bh then g.bh else h
  let w := if w < g.bh then g.bh else w
  let wh' := if g.resizehints || c.isfloating then ashHints c w h else (w, h)
  let w := wh'.1
  let h := wh'.2
  ⟨x, y, w, h, decide (x ≠ c.x ∨ y ≠ c.y ∨ w ≠ c.w ∨ h ≠ c.h)⟩

/-! ## resize / resizeclient (dwm.c lines 1133-1152) -/

/-- resizeclient(c, x, y, w, h): saves the old geometry and installs the new
    one (the XConfigureWindow/configure/XSync calls touch no model state). -/
def resizeclient (c : Client) (x y w h : Int) : Client :=
  { c with oldx := c.x, x := x, oldy := c.y, y := y,
           oldw := c.w, w := w, oldh := c.h, h := h }

/-- resize(c, x, y, w, h, interact):
    if (applysizehints(c, &x, &y, &w, &h, interact)) resizeclient(c, x, y, w, h). -/
def resize (g : Globals) (m : Monitor) (c : Client)
    (x y w h : Int) (interact : Bool) : Client :=
  let a := applysizehints g m c x y w h interact
  if a.changed then resizeclient c a.x a.y a.w a.h else c

/-! ## tile (dwm.c lines 1463-1485) -/

/-- nexttiled(c): first client of the chain that is neither floating nor
    invisible. -/
def nexttiled (m : Monitor) (cs : List Client) : Option Client :=
  match cs with
  | [] => none
  | c :: rest => if c.isfloating || !ISVISIBLE m c then nexttiled m rest else some c

/-- The count `n` computed by the first loop of `tile`. -/
def countTiled (m : Monitor) (cs : List Client) : Nat :=
  match cs with
  | [] => 0
  | c :: rest =>
    if c.isfloating || !ISVISIBLE m c then countTiled m rest else countTiled m rest + 1

/-- The placement loop of `tile`.  The loop variables `i`, `my`, `ty` (and
    `n`, `h`, `mw`) are C `unsigned int`; the mixed signed/unsigned
    arithmetic of the body is reproduced with the `toU`/`toI`/`uadd`/`usub`/
    `udiv` conversions.  Floating or invisible clients are skipped by
    `nexttiled` and left untouched. -/
def tileLoop (g : Globals) (m : Monitor) (n mw : Nat) :
    Nat → Nat → Nat → List Client → List Client
  | _, _, _, [] => []
  | i, my, ty, c :: rest =>
    if c.isfloating || !ISVISIBLE m c then
      c :: tileLoop g m n mw i my ty rest
    else if ult i (toU m.nmaster) then
      let h := usub (udiv (usub (toU m.wh) my) (usub (min (n % U32) (toU m.nmaster)) i)) (toU m.gappx)
      let c' := resize g m c (m.wx + m.gappx) (toI (uadd (toU m.wy) my))
                  (toI (usub (usub mw (toU (2 * c.bw))) (toU m.gappx)))
                  (toI (usub h (toU (2 * c.bw)))) false
      let my' := if ult (uadd my (toU (HEIGHT c'))) (toU m.wh)
                 then uadd my (toU (HEIGHT c' + m.gappx)) else my
      c' :: tileLoop g m n mw (uadd i 1) my' ty rest
    else
      let h := usub (udiv (usub (toU m.wh) ty) (usub (n % U32) i)) (toU m.gappx)
      let c' := resize g m c (toI (uadd (uadd (toU m.wx) mw) (toU m.gappx)))
                  (toI (uadd (toU m.wy) ty))
                  (toI (usub (usub (usub (toU m.ww) mw) (toU (2 * c.bw))) (toU (2 * m.gappx))))
                  (toI (usub h (toU (2 * c.bw)))) false
      let ty' := if ult (uadd ty (toU (HEIGHT c'))) (toU m.wh)
                 then uadd ty (toU (HEIGHT c' + m.gappx)) else ty
      c' :: tileLoop g m n mw (uadd i 1) my ty' rest

/-- tile(m), dwm.c lines 1463-1485. -/
def tile (g : Globals) (m : Monitor) : Monitor :=
  let n := countTiled m m.clients
  if n = 0 then m
  else
    let mw : Nat :=
      if ult (toU m.nmaster) (n % U32) ∨ toU m.nmaster = n % U32 then
        -- n > m->nmaster (unsigned comparison)
        if toU m.nmaster ≠ n % U32 then
          if m.nmaster ≠ 0 then toU (ftrunc (fmul (fofInt m.ww) m.mfact)) else 0
        else toU (m.ww - m.gappx)
      else toU (m.ww - m.gappx)
    { m with clients := tileLoop g m n mw 0 (toU m.gappx) (toU m.gappx) m.clients }

/-! ## showhide / arrange (dwm.c lines 459-469, 1419-1431) -/

/-- The mutation `showhide` performs on one client: a visible, floating,
    non-fullscreen client is resized through the size hints at its current
    geometry; every other client is only moved as an X window (no model
    field changes). -/
def showhideStep (g : Globals) (m : Monitor) (c : Client) : Client :=
  if ISVISIBLE m c then
    if c.isfloating && !c.isfullscreen then resize g m c c.x c.y c.w c.h false else c
  else c

/-- showhide(m->stack): walk the focus stack, applying `showhideStep` to each
    client it reaches. -/
def showhideGo (g : Globals) (m : Monitor) (stack : List Nat) (cs : List Client) :
    List Client :=
  match stack with
  | [] => cs
  | cid :: rest => showhideGo g m rest (updateClient cs cid (showhideStep g m))

/-- The model effect of showhide(m->stack) on a monitor. -/
def showhideM (g : Globals) (m : Monitor) : Monitor :=
  { m with clients := showhideGo g m m.stack m.clients }

/-- arrange(m) = showhide(m->stack); tile(m); restack(m).  `restack` raises
    the selected floating client and drains EnterNotify events - no model
    mutation. -/
def arrange (g : Globals) (m : Monitor) : Monitor :=
  tile g (showhideM g m)

/-! ## focus (dwm.c lines 739-756) and stack manipulation -/

/-- Visibility of the client an identity resolves to (used to walk the focus
    stack as `for (c = stack; c && !ISVISIBLE(c); c = c->snext)`). -/
def cidVisible (m : Monitor) (cid : Nat) : Bool :=
  match findClient m.clients cid with
  | some c => ISVISIBLE m c
  | none => false

/-- First visible client of the focus stack. -/
def firstVisibleStack (m : Monitor) (stack : List Nat) : Option Nat :=
  match stack with
  | [] => none
  | cid :: rest => if cidVisible m cid then some cid else firstVisibleStack m rest

/-- Remove the first occurrence of an identity from a stack list (the pointer
    unlink of `detachstack`). -/
def removeCid (stack : List Nat) (cid : Nat) : List Nat :=
  match stack with
  | [] => []
  | d :: rest => if d = cid then rest else d :: removeCid rest cid

/-- focus(c), dwm.c lines 739-756: if `c` is null or invisible, take the
    first visible stack client; unfocus the old selection (X only); if a
    client was found, clear its urgency, move it to the stack head and focus
    it; otherwise focus the root.  Finally `selmon->sel = c`. -/
def focus (_g : Globals) (m : Monitor) (co : Option Nat) : Monitor :=
  let target :=
    match co with
    | some cid => if cidVisible m cid then some cid else firstVisibleStack m m.stack
    | none => firstVisibleStack m m.stack
  match target with
  | some cid =>
    let cs := updateClient m.clients cid
      (fun c => if c.isurgent then { c with isurgent := false } else c)
    { m with clients := cs, stack := cid :: removeCid m.stack cid, sel := some cid }
  | none => { m with sel := none }

/-! ## setfullscreen (dwm.c lines 1323-1345) -/

/-- setfullscreen(c, fullscreen), dwm.c lines 1323-1345, acting on the client
    resolved from `cid` on monitor `m`. -/
def setfullscreen (g : Globals) (m : Monitor) (cid : Nat) (fullscreen : Bool) : Monitor :=
  match findClient m.clients cid with
  | none => m
  | some c =>
    if fullscreen && !c.isfullscreen then
      let c1 := { c with isfullscreen := true, oldstate := c.isfloating,
                         oldbw := c.bw, bw := 0, isfloating := true }
      let c2 := resizeclient c1 m.mx m.my m.mw m.mh
      { m with clients := updateClient m.clients cid (fun _ => c2) }
    else if !fullscreen && c.isfullscreen then
      let c1 := { c with isfullscreen := false, isfloating := c.oldstate,
                         bw := c.oldbw, x := c.oldx, y := c.oldy,
                         w := c.oldw, h := c.oldh }
      let c2 := resizeclient c1 c1.x c1.y c1.w c1.h
      arrange g { m with clients := updateClient m.clients cid (fun _ => c2) }
    else m

/-! ## comboview (dwm.c lines 366-377) and keyrelease (line 351) -/

/-- Window-manager state carrying the file-scope `combo` flag next to the
    (single) monitor. -/
structure WMState where
  combo : Bool
  mon : Monitor

/-- keyrelease(e): combo = 0. -/
def keyrelease (s : WMState) : WMState := { s with combo := false }

/-- comboview(arg), dwm.c lines 366-377. -/
def comboview (g : Globals) (s : WMState) (argui : Nat) : WMState :=
  let newtags := argui &&& TAGMASK
  if s.combo then
    let m := s.mon.setCurtags (s.mon.curtags ||| newtags)
    { s with mon := arrange g (focus g m none) }
  else
    let m := { s.mon with seltags := !s.mon.seltags }
    let m := if newtags ≠ 0 then m.setCurtags newtags else m
    { combo := true, mon := arrange g (focus g m none) }

/-! ## toggleview / toggletag (dwm.c lines 1500-1520) -/

/-- toggleview(arg), dwm.c lines 1512-1520. -/
def toggleview (g : Globals) (m : Monitor) (argui : Nat) : Monitor :=
  let newtagset := m.curtags ^^^ (argui &&& TAGMASK)
  if newtagset ≠ 0 then
    arrange g (focus g (m.setCurtags newtagset) none)
  else m

/-- toggletag(arg), dwm.c lines 1500-1510. -/
def toggletag (g : Globals) (m : Monitor) (argui : Nat) : Monitor :=
  match m.sel with
  | none => m
  | some cid =>
    match findClient m.clients cid with
    | none => m
    | some c =>
      let newtags := c.tags ^^^ (argui &&& TAGMASK)
      if newtags ≠ 0 then
        let cs := updateClient m.clients cid (fun c0 => { c0 with tags := newtags })
        arrange g (focus g { m with clients := cs } none)
      else m

/-! ## zoom / pop (dwm.c lines 1083-1088, 1836-1843) -/

/-- detach(c): unlink from the tile-order list. -/
def detach (cs : List Client) (cid : Nat) : List Client :=
  match cs with
  | [] => []
  | c :: rest => if c.cid = cid then rest else c :: detach rest cid

/-- The suffix `c->next` of the tile-order list: everything after the first
    client with the given identity. -/
def tailAfter (cs : List Client) (cid : Nat) : List Client :=
  match cs with
  | [] => []
  | c :: rest => if c.cid = cid then rest else tailAfter rest cid

/-- pop(c) = detach(c); attach(c); focus(c); arrange(c->mon).  `attach`
    pushes at the head of the tile-order list. -/
def pop (g : Globals) (m : Monitor) (cid : Nat) : Monitor :=
  match findClient m.clients cid with
  | none => m
  | some c =>
    let m1 := { m with clients := c :: detach m.clients cid }
    arrange g (focus g m1 (some cid))

/-- zoom(arg), dwm.c lines 1836-1843.  The result is `none` where the C code
    dereferences a null `c` (pop of a null pointer: no selected client while
    a tiled visible client exists, or a dangling selection). -/
def zoom (g : Globals) (m : Monitor) : Option Monitor :=
  match m.sel with
  | none =>
    -- c = NULL; the floating test is skipped (selmon->sel is null)
    match nexttiled m m.clients with
    | none => some m          -- c == nexttiled(...) and !c: return
    | some _ => none          -- c != nexttiled(...): pop(NULL), null deref
  | some selcid =>
    match findClient m.clients selcid with
    | none => none            -- dangling sel pointer (unreachable in C)
    | some c =>
      if c.isfloating then some m
      else if (nexttiled m m.clients).map (fun d => d.cid) = some selcid then
        match nexttiled m (tailAfter m.clients selcid) with
        | none => some m
        | some c2 => some (pop g m c2.cid)
      else some (pop g m selcid)

/-! ## configurerequest (dwm.c lines 616-660), managed-client branch -/

/-- X11 value_mask bit CWX. -/
def CWX : Nat := 1
/-- X11 value_mask bit CWY. -/
def CWY : Nat := 2
/-- X11 value_mask bit CWWidth. -/
def CWWidth : Nat := 4
/-- X11 value_mask bit CWHeight. -/
def CWHeight : Nat := 8
/-- X11 value_mask bit CWBorderWidth. -/
def CWBorderWidth : Nat := 16

/-- The fields of an XConfigureRequestEvent the managed-client branch
    reads. -/
structure CRE where
  valueMask : Nat
  x : Int
  y : Int
  width : Int
  height : Int
  borderWidth : Int

/-- configurerequest(e) for a managed client `c` on monitor `m`
    (dwm.c lines 622-650).  The returned boolean records whether
    `configure(c)` re-sent the current configuration to the window. -/
def configurerequest (m : Monitor) (c : Client) (ev : CRE) : Client × Bool :=
  if ev.valueMask &&& CWBorderWidth ≠ 0 then
    ({ c with bw := ev.borderWidth }, false)
  else if c.isfloating then
    let c := if ev.valueMask &&& CWX ≠ 0 then { c with oldx := c.x, x := m.mx + ev.x } else c
    let c := if ev.valueMask &&& CWY ≠ 0 then { c with oldy := c.y, y := m.my + ev.y } else c
    let c := if ev.valueMask &&& CWWidth ≠ 0 then { c with oldw := c.w, w := ev.width } else c
    let c := if ev.valueMask &&& CWHeight ≠ 0 then { c with oldh := c.h, h := ev.height } else c
    let c := if c.x + c.w > m.mx + m.mw ∧ c.isfloating
             then { c with x := m.mx + (m.mw / 2 - WIDTH c / 2) } else c
    let c := if c.y + c.h > m.my + m.mh ∧ c.isfloating
             then { c with y := m.my + (m.mh / 2 - HEIGHT c / 2) } else c
    let sent := ev.valueMask &&& (CWX ||| CWY) ≠ 0 ∧ ev.valueMask &&& (CWWidth ||| CWHeight) = 0
    (c, decide sent)
  else
    (c, true)

/-! ## setmfact / incnmaster / createmon (dwm.c lines 662-672, 885-888, 1347-1356) -/

/-- setmfact(arg), dwm.c lines 1347-1356: `f = arg->f < 1.0 ? arg->f + mfact
    : arg->f - 1.0; if (f < 0.05 || f > 0.95) return; mfact = f; arrange`. -/
def setmfact (g : Globals) (m : Monitor) (argf : Frac) : Monitor :=
  let f := if fblt argf (fofInt 1) then fadd argf m.mfact else fsub argf (fofInt 1)
  if fblt f ⟨1, 20⟩ || fblt ⟨19, 20⟩ f then m
  else arrange g { m with mfact := f }

/-- incnmaster(arg), dwm.c lines 885-888:
    `selmon->nmaster = MAX(selmon->nmaster + arg->i, 0); arrange(selmon)`. -/
def incnmaster (g : Globals) (m : Monitor) (argi : Int) : Monitor :=
  arrange g { m with nmaster := cMAX (m.nmaster + argi) 0 }

/-- createmon(), dwm.c lines 662-672: a zeroed monitor with
    `tagset[0] = tagset[1] = 1`, the configured `mfact`, `nmaster`, `gappx`
    and the current global bar height. -/
def createmon : Monitor :=
  { mfact := mfactConf, nmaster := nmasterConf,
    mx := 0, my := 0, mw := 0, mh := 0, wx := 0, wy := 0, ww := 0, wh := 0,
    gappx := gappxConf, seltags := false, tagset0 := 1, tagset1 := 1,
    clients := [], stack := [], sel := none }

/-- One user command manipulating the layout parameters (the operations
    claim C8 quantifies over). -/
inductive MonOp where
  | mfactOp (f : Frac)
  | nmasterOp (i : Int)

/-- Application of a command sequence to a monitor, head first. -/
def applyOps (g : Globals) (ops : List MonOp) (m : Monitor) : Monitor :=
  match ops with
  | [] => m
  | MonOp.mfactOp f :: rest => applyOps g rest (setmfact g m f)
  | MonOp.nmasterOp i :: rest => applyOps g rest (incnmaster g m i)

/-! ## Concrete fixtures for the end-to-end scenarios -/

/-- Globals of the scenario configuration: one 1920x1080 screen, no bar
    (`bh = 0`), the configured `resizehints`. -/
def gNoBar : Globals := { sw := 1920, sh := 1080, bh := 0, resizehints := resizehintsConf }

/-- A freshly managed client with no size hints, border `borderpx = 0`,
    living on tag 1, tiled, with an arbitrary initial geometry. -/
def plainClient (i : Nat) : Client :=
  { cid := i, x := 0, y := 0, w := 100, h := 100,
    oldx := 0, oldy := 0, oldw := 0, oldh := 0,
    basew := 0, baseh := 0, incw := 0, inch := 0,
    maxw := 0, maxh := 0, minw := 0, minh := 0,
    bw := borderpx, oldbw := 0, mina := fofInt 0, maxa := fofInt 0, tags := 1,
    isfixed := false, isfloating := false, isurgent := false,
    neverfocus := false, oldstate := false, isfullscreen := false }

/-- The scenario monitor: 1920x1080, no bar reservation, `gappx = 10`,
    `mfact = 0.55`, `nmaster = 1`, viewing tag 1, with no clients yet. -/
def scenMon : Monitor :=
  { mfact := mfactConf, nmaster := nmasterConf,
    mx := 0, my := 0, mw := 1920, mh := 1080,
    wx := 0, wy := 0, ww := 1920, wh := 1080,
    gappx := gappxConf, seltags := false, tagset0 := 1, tagset1 := 1,
    clients := [], stack := [], sel := none }

/-- Scenario S1 state: one mapped window. -/
def scenMon1 : Monitor :=
  { scenMon with clients := [plainClient 1], stack := [1], sel := some 1 }

/-- Scenario S2 state: two mapped windows (`attach` prepends, so the later
    window heads the tile order; here the tile order is client 1 then 2, so
    client 1 is "the first tile in tile order"). -/
def scenMon2 : Monitor :=
  { scenMon with clients := [plainClient 1, plainClient 2], stack := [2, 1], sel := some 2 }

/-! ## C1: the S1/S2 tiling scenarios -/

/-- C1: on a 1920x1080 monitor with gappx=10, mfact=0.55, nmaster=1,
    borderpx=0 and no bar, `tile` places a single hintless tiled client at
    (10,10) with size 1900x1060; with two tiled clients, the first tile in
    tile order gets (10,10) 1046x1060 and the second (1066,10) 844x1060. -/
theorem tile_scenario_s1_s2 :
    ((tile gNoBar scenMon1).clients.map (fun c => (c.x, c.y, c.w, c.h)))
      = [(10, 10, 1900, 1060)] ∧
    ((tile gNoBar scenMon2).clients.map (fun c => (c.x, c.y, c.w, c.h)))
      = [(10, 10, 1046, 1060), (1066, 10, 844, 1060)] := by
  decide

/-! ## C5: the zoom scenario -/

/-- The state after mapping windows 1, 2, 3 (in that order: `attach`
    prepends, so the tile order is 3, 2, 1) and focusing window 2. -/
def scenMonZ : Monitor :=
  { scenMon with clients := [plainClient 3, plainClient 2, plainClient 1],
                 stack := [2, 3, 1], sel := some 2 }

/-- C5 counterexample: after `zoom` on the second-mapped window, the tile
    order is [2, 3, 1] - the stack column holds the third-mapped window and
    then the first-mapped one, not (first, third) as claimed. -/
theorem zoom_stack_order_cex :
    ((zoom gNoBar scenMonZ).map (fun m => m.clients.map (fun c => c.cid)))
      = some [2, 3, 1] ∧
    ((zoom gNoBar scenMonZ).map (fun m => m.clients.map (fun c => c.cid)))
      ≠ some [2, 1, 3] := by
  decide

/-- C5 amended: after mapping three windows and invoking `zoom` while the
    second-mapped window is selected, the second-mapped window becomes the
    master (head of the tile order), it becomes the selection, and the stack
    column holds the remaining windows in the order third-mapped then
    first-mapped. -/
theorem zoom_second_scenario :
    ((zoom gNoBar scenMonZ).map (fun m => (m.clients.map (fun c => c.cid), m.sel)))
      = some ([2, 3, 1], some 2) := by
  decide

/-! ## Preservation lemmas: which fields each engine pass leaves alone -/

lemma resizeclient_cid (c : Client) (x y w h : Int) :
    (resizeclient c x y w h).cid = c.cid := rfl

lemma resize_cid (g : Globals) (m : Monitor) (c : Client) (x y w h : Int) (i : Bool) :
    (resize g m c x y w h i).cid = c.cid := by
  unfold resize
  dsimp only
  split <;> rfl

section Proj

variable {α : Type} (p : Client → α)

lemma resize_proj (hp : ∀ c x y w h, p (resizeclient c x y w h) = p c)
    (g : Globals) (m : Monitor) (c : Client) (x y w h : Int) (i : Bool) :
    p (resize g m c x y w h i) = p c := by
  unfold resize
  dsimp only
  split
  · exact hp _ _ _ _ _
  · rfl

lemma findClient_updateClient_proj (f : Client → Client)
    (hcid : ∀ c, (f c).cid = c.cid) (hp : ∀ c, p (f c) = p c)
    (cs : List Client) (d q : Nat) :
    (findClient (updateClient cs d f) q).map p = (findClient cs q).map p := by
  induction cs with
  | nil => rfl
  | cons c rest ih =>
    simp only [updateClient]
    split
    · simp only [findClient, hcid]
      split
      · simp [hp]
      · rfl
    · simp only [findClient]
      split
      · rfl
      · exact ih

lemma showhideStep_proj (hp : ∀ c x y w h, p (resizeclient c x y w h) = p c)
    (g : Globals) (m : Monitor) (c : Client) : p (showhideStep g m c) = p c := by
  unfold showhideStep
  split
  · split
    · exact resize_proj p hp g m c _ _ _ _ _
    · rfl
  · rfl

lemma showhideStep_cid (g : Globals) (m : Monitor) (c : Client) :
    (showhideStep g m c).cid = c.cid := by
  unfold showhideStep
  split
  · split
    · exact resize_cid g m c _ _ _ _ _
    · rfl
  · rfl

lemma findClient_showhideGo_proj (hp : ∀ c x y w h, p (resizeclient c x y w h) = p c)
    (g : Globals) (m : Monitor) (stack : List Nat) (cs : List Client) (q : Nat) :
    (findClient (showhideGo g m stack cs) q).map p = (findClient cs q).map p := by
  induction stack generalizing cs with
  | nil => rfl
  | cons d rest ih =>
    simp only [showhideGo]
    rw [ih]
    exact findClient_updateClient_proj p (showhideStep g m)
      (showhideStep_cid g m) (showhideStep_proj p hp g m) cs d q

lemma findClient_tileLoop_proj (hp : ∀ c x y w h, p (resizeclient c x y w h) = p c)
    (g : Globals) (m : Monitor) (n mw : Nat) (i my ty : Nat) (cs : List Client) (q : Nat) :
    (findClient (tileLoop g m n mw i my ty cs) q).map p = (findClient cs q).map p := by
  induction cs generalizing i my ty with
  | nil => rfl
  | cons c rest ih =>
    simp only [tileLoop]
    split
    · simp only [findClient]
      split
      · rfl
      · exact ih i my ty
    · split
      · simp only [findClient, resize_cid]
        split
        · simp [resize_proj p hp]
        · exact ih _ _ _
      · simp only [findClient, resize_cid]
        split
        · simp [resize_proj p hp]
        · exact ih _ _ _

lemma findClient_tile_proj (hp : ∀ c x y w h, p (resizeclient c x y w h) = p c)
    (g : Globals) (m : Monitor) (q : Nat) :
    (findClient (tile g m).clients q).map p = (findClient m.clients q).map p := by
  unfold tile
  dsimp only
  split
  · rfl
  · exact findClient_tileLoop_proj p hp g m _ _ _ _ _ m.clients q

lemma findClient_arrange_proj (hp : ∀ c x y w h, p (resizeclient c x y w h) = p c)
    (g : Globals) (m : Monitor) (q : Nat) :
    (findClient (arrange g m).clients q).map p = (findClient m.clients q).map p := by
  unfold arrange
  rw [findClient_tile_proj p hp]
  exact findClient_showhideGo_proj p hp g m m.stack m.clients q

lemma findClient_focus_proj (hu : ∀ c, p { c with isurgent := false } = p c)
    (g : Globals) (m : Monitor) (co : Option Nat) (q : Nat) :
    (findClient (focus g m co).clients q).map p = (findClient m.clients q).map p := by
  unfold focus
  dsimp only
  split
  · dsimp only
    refine findClient_updateClient_proj p _ ?_ ?_ m.clients _ q
    · intro c
      dsimp only
      split <;> rfl
    · intro c
      dsimp only
      split
      · exact hu c
      · rfl
  · rfl

end Proj

lemma findClient_updateClient_self (f : Client → Client)
    (hcid : ∀ c, (f c).cid = c.cid) (cs : List Client) (d : Nat) :
    findClient (updateClient cs d f) d = (findClient cs d).map f := by
  induction cs with
  | nil => rfl
  | cons c rest ih =>
    simp only [updateClient]
    split
    · simp only [findClient, hcid]
      split
      · rfl
      · simp_all
    · simp only [findClient]
      split
      · simp_all
      · exact ih

/-! ## Monitor-level frame lemmas -/

lemma tile_seltags (g : Globals) (m : Monitor) : (tile g m).seltags = m.seltags := by
  unfold tile
  dsimp only
  split <;> rfl

lemma tile_tagset0 (g : Globals) (m : Monitor) : (tile g m).tagset0 = m.tagset0 := by
  unfold tile
  dsimp only
  split <;> rfl

lemma tile_tagset1 (g : Globals) (m : Monitor) : (tile g m).tagset1 = m.tagset1 := by
  unfold tile
  dsimp only
  split <;> rfl

lemma tile_mfact (g : Globals) (m : Monitor) : (tile g m).mfact = m.mfact := by
  unfold tile
  dsimp only
  split <;> rfl

lemma tile_nmaster (g : Globals) (m : Monitor) : (tile g m).nmaster = m.nmaster := by
  unfold tile
  dsimp only
  split <;> rfl

lemma arrange_seltags (g : Globals) (m : Monitor) : (arrange g m).seltags = m.seltags := by
  unfold arrange
  rw [tile_seltags]
  rfl

lemma arrange_tagset0 (g : Globals) (m : Monitor) : (arrange g m).tagset0 = m.tagset0 := by
  unfold arrange
  rw [tile_tagset0]
  rfl

lemma arrange_tagset1 (g : Globals) (m : Monitor) : (arrange g m).tagset1 = m.tagset1 := by
  unfold arrange
  rw [tile_tagset1]
  rfl

lemma arrange_mfact (g : Globals) (m : Monitor) : (arrange g m).mfact = m.mfact := by
  unfold arrange
  rw [tile_mfact]
  rfl

lemma arrange_nmaster (g : Globals) (m : Monitor) : (arrange g m).nmaster = m.nmaster := by
  unfold arrange
  rw [tile_nmaster]
  rfl

lemma focus_seltags (g : Globals) (m : Monitor) (co : Option Nat) :
    (focus g m co).seltags = m.seltags := by
  unfold focus
  dsimp only
  split <;> rfl

lemma focus_tagset0 (g : Globals) (m : Monitor) (co : Option Nat) :
    (focus g m co).tagset0 = m.tagset0 := by
  unfold focus
  dsimp only
  split <;> rfl

lemma focus_tagset1 (g : Globals) (m : Monitor) (co : Option Nat) :
    (focus g m co).tagset1 = m.tagset1 := by
  unfold focus
  dsimp only
  split <;> rfl

lemma setCurtags_seltags (m : Monitor) (v : Nat) : (m.setCurtags v).seltags = m.seltags := by
  unfold Monitor.setCurtags
  split <;> rfl

lemma setCurtags_curtags (m : Monitor) (v : Nat) : (m.setCurtags v).curtags = v := by
  unfold Monitor.setCurtags Monitor.curtags
  by_cases h : m.seltags <;> simp [h]

lemma curtags_congr (m' m : Monitor) (h0 : m'.seltags = m.seltags)
    (h1 : m'.tagset0 = m.tagset0) (h2 : m'.tagset1 = m.tagset1) :
    m'.curtags = m.curtags := by
  unfold Monitor.curtags
  rw [h0, h1, h2]

lemma arrange_curtags (g : Globals) (m : Monitor) : (arrange g m).curtags = m.curtags :=
  curtags_congr _ _ (arrange_seltags g m) (arrange_tagset0 g m) (arrange_tagset1 g m)

lemma focus_curtags (g : Globals) (m : Monitor) (co : Option Nat) :
    (focus g m co).curtags = m.curtags :=
  curtags_congr _ _ (focus_seltags g m co) (focus_tagset0 g m co) (focus_tagset1 g m co)

/-! ## C8: mfact and nmaster stay in range -/

/-- The invariant of claim C8: `mfact` is a well-formed fraction lying in
    [0.05, 0.95] and `nmaster` is non-negative. -/
def LayoutInv (m : Monitor) : Prop :=
  0 < m.mfact.den ∧ fble ⟨1, 20⟩ m.mfact = true ∧ fble m.mfact ⟨19, 20⟩ = true ∧
    0 ≤ m.nmaster

/-- Well-formedness of a command argument: a float argument is a fraction
    with positive denominator. -/
def WFOp : MonOp → Bool
  | MonOp.mfactOp f => 0 < f.den
  | MonOp.nmasterOp _ => true

lemma LayoutInv_arrange (g : Globals) (m : Monitor) :
    LayoutInv (arrange g m) ↔ LayoutInv m := by
  unfold LayoutInv
  rw [arrange_mfact, arrange_nmaster]

lemma LayoutInv_mk (m : Monitor) (f : Frac) (hden : 0 < f.den)
    (hg : ¬ (fblt f ⟨1, 20⟩ || fblt ⟨19, 20⟩ f) = true) (hn : 0 ≤ m.nmaster) :
    LayoutInv { m with mfact := f } := by
  simp only [Bool.or_eq_true, not_or, fblt, decide_eq_true_eq, not_lt] at hg
  obtain ⟨h1, h2⟩ := hg
  refine ⟨hden, ?_, ?_, hn⟩
  · simp only [fble, decide_eq_true_eq]
    omega
  · simp only [fble, decide_eq_true_eq]
    omega

lemma LayoutInv_setmfact (g : Globals) (m : Monitor) (argf : Frac)
    (hwf : 0 < argf.den) (hm : LayoutInv m) : LayoutInv (setmfact g m argf) := by
  unfold setmfact
  dsimp only
  split
  · split
    · exact hm
    · rename_i hguard
      rw [LayoutInv_arrange]
      exact LayoutInv_mk m _ (mul_pos hwf hm.1) hguard hm.2.2.2
  · split
    · exact hm
    · rename_i hguard
      rw [LayoutInv_arrange]
      refine LayoutInv_mk m _ ?_ hguard hm.2.2.2
      simpa [fsub, fofInt] using hwf

lemma LayoutInv_incnmaster (g : Globals) (m : Monitor) (i : Int)
    (hm : LayoutInv m) : LayoutInv (incnmaster g m i) := by
  unfold incnmaster
  rw [LayoutInv_arrange]
  refine ⟨hm.1, hm.2.1, hm.2.2.1, ?_⟩
  show (0 : Int) ≤ cMAX (m.nmaster + i) 0
  unfold cMAX
  split <;> omega

lemma LayoutInv_applyOps (g : Globals) (ops : List MonOp) :
    ∀ m, (∀ op ∈ ops, WFOp op = true) → LayoutInv m → LayoutInv (applyOps g ops m) := by
  induction ops with
  | nil => intro m _ hm; exact hm
  | cons op rest ih =>
    intro m hwf hm
    match op with
    | MonOp.mfactOp f =>
      refine ih _ (fun o ho => hwf o (List.mem_cons_of_mem _ ho)) ?_
      refine LayoutInv_setmfact g m f ?_ hm
      have := hwf _ (List.mem_cons_self _ _)
      simpa [WFOp] using this
    | MonOp.nmasterOp i =>
      exact ih _ (fun o ho => hwf o (List.mem_cons_of_mem _ ho))
        (LayoutInv_incnmaster g m i hm)

/-- C8: starting from a fresh monitor, any sequence of `setmfact` and
    `incnmaster` commands (with well-formed float arguments) keeps `mfact`
    within [0.05, 0.95] - `setmfact` rejects adjustments that would leave the
    range - and keeps `nmaster` non-negative - `incnmaster` clamps at 0. -/
theorem mfact_nmaster_invariant (g : Globals) (ops : List MonOp)
    (hwf : ∀ op ∈ ops, WFOp op = true) :
    0 < (applyOps g ops createmon).mfact.den ∧
    fble ⟨1, 20⟩ (applyOps g ops createmon).mfact = true ∧
    fble (applyOps g ops createmon).mfact ⟨19, 20⟩ = true ∧
    0 ≤ (applyOps g ops createmon).nmaster :=
  LayoutInv_applyOps g ops createmon hwf (by constructor <;> simp [createmon, mfactConf, fble, nmasterConf])

/-- Witness for C8 at a concrete command list. -/
theorem mfact_nmaster_invariant_witness :
    (∀ op ∈ [MonOp.mfactOp ⟨1, 10⟩, MonOp.nmasterOp (-5), MonOp.mfactOp ⟨21, 20⟩],
        WFOp op = true) ∧
    0 ≤ (applyOps gNoBar [MonOp.mfactOp ⟨1, 10⟩, MonOp.nmasterOp (-5),
        MonOp.mfactOp ⟨21, 20⟩] createmon).nmaster := by
  constructor
  · decide
  · exact (mfact_nmaster_invariant gNoBar _ (by decide)).2.2.2

/-! ## C4: the comboview chord accumulator -/

/-- A state with the combo flag clear and distinct buffered tagsets, used to
    exercise `comboview` with a zero tag mask. -/
def comboS0 : WMState :=
  { combo := false, mon := { scenMon with tagset0 := 1, tagset1 := 2 } }

/-- C4 counterexample: with the combo flag clear and a zero tag argument,
    `comboview` does NOT set the selected tagset to the (masked) argument -
    the store is guarded by `if (newtags)`, so the previously buffered tagset
    (here 2) is recalled instead of storing 0. -/
theorem comboview_zero_mask_cex :
    (comboview gNoBar comboS0 0).mon.curtags ≠ 0 &&& TAGMASK ∧
    (comboview gNoBar comboS0 0).mon.curtags = 2 := by
  decide

/-- C4 amended: `comboview` ORs the masked tag argument into the current
    tagset when the combo flag is set (leaving `seltags` and the flag alone);
    when the flag is clear it toggles `seltags`, sets the flag, and stores the
    masked argument as the new tagset provided that mask is non-zero (a zero
    mask recalls the other buffered tagset instead).  In particular two tag
    keys pressed under one modifier hold (no release in between) select the
    union of the two masks. -/
theorem comboview_chord (g : Globals) (s : WMState) (a1 a2 : Nat) :
    (s.combo = true →
       (comboview g s a1).mon.curtags = s.mon.curtags ||| (a1 &&& TAGMASK) ∧
       (comboview g s a1).mon.seltags = s.mon.seltags ∧
       (comboview g s a1).combo = true) ∧
    (s.combo = false →
       (comboview g s a1).combo = true ∧
       (comboview g s a1).mon.seltags = !s.mon.seltags ∧
       (a1 &&& TAGMASK ≠ 0 → (comboview g s a1).mon.curtags = a1 &&& TAGMASK) ∧
       (a1 &&& TAGMASK = 0 →
          (comboview g s a1).mon.curtags
            = (if s.mon.seltags then s.mon.tagset0 else s.mon.tagset1))) ∧
    (s.combo = false → a1 &&& TAGMASK ≠ 0 →
       (comboview g (comboview g s a1) a2).mon.curtags
         = (a1 &&& TAGMASK) ||| (a2 &&& TAGMASK)) := by
  have hcomboT : ∀ (s' : WMState), s'.combo = true →
      (comboview g s' a2).mon.curtags = s'.mon.curtags ||| (a2 &&& TAGMASK) := by
    intro s' h
    unfold comboview
    rw [h]
    simp only [if_true]
    rw [arrange_curtags, focus_curtags, setCurtags_curtags]
  refine ⟨?_, ?_, ?_⟩
  · intro h
    unfold comboview
    rw [h]
    simp only [if_true]
    refine ⟨?_, ?_, by trivial⟩
    · rw [arrange_curtags, focus_curtags, setCurtags_curtags]
    · rw [arrange_seltags, focus_seltags, setCurtags_seltags]
  · intro h
    unfold comboview
    rw [h]
    simp only [Bool.false_eq_true, if_false]
    refine ⟨by trivial, ?_, ?_, ?_⟩
    · rw [arrange_seltags, focus_seltags]
      split
      · rw [setCurtags_seltags]
      · rfl
    · intro hne
      rw [arrange_curtags, focus_curtags]
      rw [if_pos hne, setCurtags_curtags]
    · intro hz
      rw [arrange_curtags, focus_curtags]
      rw [if_neg (by simp [hz])]
      unfold Monitor.curtags
      dsimp only
      cases hst : s.mon.seltags <;> simp
  · intro h hne
    have h1 : (comboview g s a1).combo = true := by
      unfold comboview
      rw [h]
      simp
    have h2 : (comboview g s a1).mon.curtags = a1 &&& TAGMASK := by
      unfold comboview
      rw [h]
      simp only [Bool.false_eq_true, if_false]
      rw [arrange_curtags, focus_curtags, if_pos hne, setCurtags_curtags]
    rw [hcomboT _ h1, h2]

/-- Witness for C4 at a concrete chord: Mod+1 then Mod+2 from a combo-clear
    state selects tags {1, 2}. -/
theorem comboview_chord_witness :
    comboS0.combo = false ∧ (1 : Nat) &&& TAGMASK ≠ 0 ∧
    (comboview gNoBar (comboview gNoBar comboS0 1) 2).mon.curtags = 3 :=
  ⟨rfl, by decide,
    ((comboview_chord gNoBar comboS0 1 2).2.2 rfl (by decide)).trans (by decide)⟩

/-! ## C6: toggleview / toggletag refuse empty results -/

lemma findClient_cid (cs : List Client) (q : Nat) (c : Client)
    (h : findClient cs q = some c) : c.cid = q := by
  induction cs with
  | nil => exact Option.noConfusion h
  | cons a rest ih =>
    simp only [findClient] at h
    split at h
    · cases h
      assumption
    · exact ih h

lemma findClient_updateClient_found (cs : List Client) (d : Nat) (c : Client)
    (f : Client → Client) (hfc : findClient cs d = some c) (hc2 : (f c).cid = d) :
    findClient (updateClient cs d f) d = some (f c) := by
  induction cs with
  | nil => exact Option.noConfusion hfc
  | cons a rest ih =>
    simp only [findClient] at hfc
    by_cases ha : a.cid = d
    · rw [if_pos ha] at hfc
      cases hfc
      simp [updateClient, findClient, ha, hc2]
    · rw [if_neg ha] at hfc
      simp only [updateClient, if_neg ha, findClient]
      exact ih hfc

/-- C6: `toggleview` leaves the monitor unchanged when XOR-ing the masked
    argument into the selected tagset would yield 0 and stores the new value
    otherwise; `toggletag` leaves the monitor unchanged when XOR-ing the
    masked argument into the selected client's tags would yield 0 and stores
    the new value otherwise. -/
theorem toggle_refuse_empty (g : Globals) (m : Monitor) (a : Nat) :
    (m.curtags ^^^ (a &&& TAGMASK) = 0 → toggleview g m a = m) ∧
    (m.curtags ^^^ (a &&& TAGMASK) ≠ 0 →
       (toggleview g m a).curtags = m.curtags ^^^ (a &&& TAGMASK)) ∧
    (∀ cid c, m.sel = some cid → findClient m.clients cid = some c →
       (c.tags ^^^ (a &&& TAGMASK) = 0 → toggletag g m a = m) ∧
       (c.tags ^^^ (a &&& TAGMASK) ≠ 0 →
          (findClient (toggletag g m a).clients cid).map (fun d => d.tags)
            = some (c.tags ^^^ (a &&& TAGMASK)))) := by
  refine ⟨?_, ?_, ?_⟩
  · intro h
    unfold toggleview
    dsimp only
    rw [if_neg (by simp [h])]
  · intro h
    unfold toggleview
    dsimp only
    rw [if_pos (by simpa using h)]
    rw [arrange_curtags, focus_curtags, setCurtags_curtags]
  · intro cid c hsel hfc
    constructor
    · intro h
      unfold toggletag
      rw [hsel]
      simp only [hfc]
      rw [if_neg (by simp [h])]
    · intro h
      unfold toggletag
      rw [hsel]
      simp only [hfc]
      rw [if_pos (by simpa using h)]
      rw [findClient_arrange_proj (fun d => d.tags) (fun _ _ _ _ _ => rfl)]
      rw [findClient_focus_proj (fun d => d.tags) (fun _ => rfl)]
      have := findClient_updateClient_found m.clients cid c
        (fun c0 => { c0 with tags := c.tags ^^^ (a &&& TAGMASK) }) hfc
        (findClient_cid m.clients cid c hfc)
      rw [this]
      rfl

/-- Witness for C6: on the one-client scenario monitor, toggling tag 1 away
    is refused (the view would become empty), while toggling tag 2 in is
    accepted and stored. -/
theorem toggle_refuse_empty_witness :
    (scenMon1.curtags ^^^ (1 &&& TAGMASK) = 0 ∧ toggleview gNoBar scenMon1 1 = scenMon1) ∧
    (scenMon1.curtags ^^^ (2 &&& TAGMASK) ≠ 0 ∧
       (toggleview gNoBar scenMon1 2).curtags = scenMon1.curtags ^^^ (2 &&& TAGMASK)) :=
  ⟨⟨by decide, (toggle_refuse_empty gNoBar scenMon1 1).1 (by decide)⟩,
   ⟨by decide, (toggle_refuse_empty gNoBar scenMon1 2).2.1 (by decide)⟩⟩

/-! ## C7: configurerequest on managed clients -/

/-- C7: for a managed, non-floating client, a ConfigureRequest without a
    border-width change leaves the client untouched and re-sends the current
    configuration; a request with a border-width change updates only `bw`
    (and sends nothing). -/
theorem configurerequest_tiled (m : Monitor) (c : Client) (ev : CRE)
    (hfl : c.isfloating = false) :
    (ev.valueMask &&& CWBorderWidth = 0 → configurerequest m c ev = (c, true)) ∧
    (ev.valueMask &&& CWBorderWidth ≠ 0 →
       configurerequest m c ev = ({ c with bw := ev.borderWidth }, false)) := by
  constructor
  · intro h
    unfold configurerequest
    rw [if_neg (by simp [h]), if_neg (by simp [hfl])]
  · intro h
    unfold configurerequest
    rw [if_pos (by simpa using h)]

/-- Witness for C7 at a concrete tiled client and two concrete requests. -/
theorem configurerequest_tiled_witness :
    ((plainClient 1).isfloating = false ∧ (12 : Nat) &&& CWBorderWidth = 0 ∧
       configurerequest scenMon1 (plainClient 1)
         { valueMask := 12, x := 7, y := 8, width := 300, height := 200, borderWidth := 5 }
         = (plainClient 1, true)) ∧
    ((16 : Nat) &&& CWBorderWidth ≠ 0 ∧
       configurerequest scenMon1 (plainClient 1)
         { valueMask := 16, x := 7, y := 8, width := 300, height := 200, borderWidth := 5 }
         = ({ plainClient 1 with bw := 5 }, false)) :=
  ⟨⟨rfl, by decide,
      (configurerequest_tiled scenMon1 (plainClient 1) _ rfl).1 (by decide)⟩,
   ⟨by decide,
      (configurerequest_tiled scenMon1 (plainClient 1) _ rfl).2 (by decide)⟩⟩

/-! ## C9: setfullscreen is idempotent in its flag argument -/

/-- The client stored by the fullscreen-on branch of `setfullscreen`. -/
def fsOnClient (m : Monitor) (c : Client) : Client :=
  resizeclient
    { c with isfullscreen := true, oldstate := c.isfloating, oldbw := c.bw,
             bw := 0, isfloating := true }
    m.mx m.my m.mw m.mh

/-- The client stored by the fullscreen-off branch of `setfullscreen`. -/
def fsOffClient (c : Client) : Client :=
  resizeclient
    { c with isfullscreen := false, isfloating := c.oldstate, bw := c.oldbw,
             x := c.oldx, y := c.oldy, w := c.oldw, h := c.oldh }
    c.oldx c.oldy c.oldw c.oldh

lemma setfullscreen_on (g : Globals) (m : Monitor) (cid : Nat) (c : Client)
    (hfc : findClient m.clients cid = some c) (hcfs : c.isfullscreen = false) :
    setfullscreen g m cid true =
      { m with clients := updateClient m.clients cid (fun _ => fsOnClient m c) } := by
  unfold setfullscreen
  simp only [hfc]
  rw [if_pos (by simp [hcfs])]
  rfl

lemma setfullscreen_off (g : Globals) (m : Monitor) (cid : Nat) (c : Client)
    (hfc : findClient m.clients cid = some c) (hcfs : c.isfullscreen = true) :
    setfullscreen g m cid false =
      arrange g { m with clients := updateClient m.clients cid (fun _ => fsOffClient c) } := by
  unfold setfullscreen
  simp only [hfc]
  rw [if_neg (by simp), if_pos (by simp [hcfs])]
  rfl

/-- C9: calling `setfullscreen` with a flag equal to the client's current
    `isfullscreen` changes nothing, and a repeated call with the same flag
    equals a single call. -/
theorem setfullscreen_idem (g : Globals) (m : Monitor) (cid : Nat) (f : Bool) :
    ((findClient m.clients cid).map (fun c => c.isfullscreen) = some f →
        setfullscreen g m cid f = m) ∧
    setfullscreen g (setfullscreen g m cid f) cid f = setfullscreen g m cid f := by
  have hnoop : ∀ (m' : Monitor) (c : Client), findClient m'.clients cid = some c →
      c.isfullscreen = f → setfullscreen g m' cid f = m' := by
    intro m' c hfc hcf
    unfold setfullscreen
    simp only [hfc]
    rw [if_neg (by simp [hcf]), if_neg (by simp [hcf])]
  constructor
  · intro h
    cases hfc : findClient m.clients cid with
    | none =>
      unfold setfullscreen
      simp only [hfc]
    | some c =>
      refine hnoop m c hfc ?_
      rw [hfc] at h
      simpa using h
  · cases hfc : findClient m.clients cid with
    | none =>
      have hm : setfullscreen g m cid f = m := by
        unfold setfullscreen
        simp only [hfc]
      rw [hm]
      exact hm
    | some c =>
      by_cases hcf : c.isfullscreen = f
      · have hm : setfullscreen g m cid f = m := hnoop m c hfc hcf
        rw [hm]
        exact hm
      · cases hf : f with
        | true =>
          rw [hf] at hcf
          have hcfs : c.isfullscreen = false := by
            cases hcc : c.isfullscreen
            · rfl
            · exact absurd hcc hcf
          have hfind : findClient (setfullscreen g m cid true).clients cid =
              some (fsOnClient m c) := by
            rw [setfullscreen_on g m cid c hfc hcfs]
            exact findClient_updateClient_found m.clients cid c _ hfc
              (findClient_cid m.clients cid c hfc)
          rw [hf] at hnoop
          exact hnoop _ _ hfind rfl
        | false =>
          rw [hf] at hcf
          have hcfs : c.isfullscreen = true := by
            cases hcc : c.isfullscreen
            · exact absurd hcc hcf
            · rfl
          have hfind : (findClient (setfullscreen g m cid false).clients cid).map
              (fun d => d.isfullscreen) = some false := by
            rw [setfullscreen_off g m cid c hfc hcfs]
            rw [findClient_arrange_proj (fun d => d.isfullscreen) (fun _ _ _ _ _ => rfl)]
            have := findClient_updateClient_found m.clients cid c
              (fun _ => fsOffClient c) hfc (findClient_cid m.clients cid c hfc)
            rw [this]
            rfl
          cases hfc2 : findClient (setfullscreen g m cid false).clients cid with
          | none => rw [hfc2] at hfind; exact Option.noConfusion hfind
          | some c2 =>
            rw [hfc2] at hfind
            rw [hf] at hnoop
            refine hnoop _ c2 hfc2 ?_
            simpa using hfind

/-- Witness for C9: on the scenario monitor, setting fullscreen off when the
    client is not fullscreen is a no-op. -/
theorem setfullscreen_idem_witness :
    (findClient scenMon1.clients 1).map (fun c => c.isfullscreen) = some false ∧
    setfullscreen gNoBar scenMon1 1 false = scenMon1 :=
  ⟨by decide, (setfullscreen_idem gNoBar scenMon1 1 false).1 (by decide)⟩

/-! ## C10: when zoom is a no-op -/

/-- A monitor with no selection but a tiled visible client: here the C code
    reaches `pop(NULL)` and dereferences a null pointer. -/
def monNoSel : Monitor :=
  { scenMon with clients := [plainClient 1], stack := [1], sel := none }

/-- C10 counterexample: with no selected client but a tiled visible client
    present, `zoom` is NOT a no-op - the C code falls through to `pop(NULL)`
    and crashes (modelled as `none`), instead of leaving the monitor
    unchanged. -/
theorem zoom_nosel_cex :
    zoom gNoBar monNoSel = none ∧ zoom gNoBar monNoSel ≠ some monNoSel := by
  refine ⟨rfl, ?_⟩
  intro hc
  rw [show zoom gNoBar monNoSel = none from rfl] at hc
  exact Option.noConfusion hc

/-- C10 amended: `zoom` performs no model mutation when the selected client
    is floating, when there is no selected client and no tiled visible client
    exists (with a tiled visible client present the code dereferences a null
    pointer instead), or when the selected client is the first tiled visible
    client and no other tiled visible client exists. -/
theorem zoom_noop (g : Globals) (m : Monitor) :
    (∀ cid c, m.sel = some cid → findClient m.clients cid = some c →
        c.isfloating = true → zoom g m = some m) ∧
    (m.sel = none → nexttiled m m.clients = none → zoom g m = some m) ∧
    (∀ cid c, m.sel = some cid → findClient m.clients cid = some c →
        c.isfloating = false →
        (nexttiled m m.clients).map (fun d => d.cid) = some cid →
        nexttiled m (tailAfter m.clients cid) = none → zoom g m = some m) := by
  refine ⟨?_, ?_, ?_⟩
  · intro cid c hsel hfc hfl
    unfold zoom
    rw [hsel]
    simp only [hfc]
    rw [if_pos hfl]
  · intro hsel hnt
    unfold zoom
    rw [hsel]
    simp only [hnt]
  · intro cid c hsel hfc hfl hfirst hnext
    unfold zoom
    rw [hsel]
    simp only [hfc]
    rw [if_neg (by simp [hfl]), if_pos hfirst]
    simp only [hnext]

/-- A floating selected client on the scenario monitor. -/
def floatClient1 : Client := { plainClient 1 with isfloating := true }

/-- The scenario monitor holding only the floating client, selected. -/
def monFloatSel : Monitor :=
  { scenMon with clients := [floatClient1], stack := [1], sel := some 1 }

/-- Witness for C10: a selected floating client makes zoom a no-op. -/
theorem zoom_noop_witness :
    monFloatSel.sel = some 1 ∧ findClient monFloatSel.clients 1 = some floatClient1 ∧
    floatClient1.isfloating = true ∧ zoom gNoBar monFloatSel = some monFloatSel :=
  ⟨rfl, rfl, rfl,
    (zoom_noop gNoBar monFloatSel).1 1 floatClient1 rfl rfl rfl⟩

/-! ## C3: size-hint application is (not) idempotent -/

/-- A client with a resize increment of 10 and a maximum width of 15 -
    hints a real X client may report. -/
def hintClient : Client := { plainClient 1 with incw := 10, maxw := 15 }

/-- C3 counterexample: applying `applysizehints` twice does not equal
    applying it once.  With incw=10 and maxw=15, a requested width of 23 is
    first aligned down to 20 and then capped to 15; re-applying the hints to
    the result aligns 15 down to 10.  The rectangle changes again. -/
theorem applysizehints_idem_cex :
    ((applysizehints gNoBar scenMon1 hintClient 0 0 23 23 false).w = 15 ∧
     (applysizehints gNoBar scenMon1 hintClient
        (applysizehints gNoBar scenMon1 hintClient 0 0 23 23 false).x
        (applysizehints gNoBar scenMon1 hintClient 0 0 23 23 false).y
        (applysizehints gNoBar scenMon1 hintClient 0 0 23 23 false).w
        (applysizehints gNoBar scenMon1 hintClient 0 0 23 23 false).h false).w = 10) ∧
    ¬ ((applysizehints gNoBar scenMon1 hintClient
          (applysizehints gNoBar scenMon1 hintClient 0 0 23 23 false).x
          (applysizehints gNoBar scenMon1 hintClient 0 0 23 23 false).y
          (applysizehints gNoBar scenMon1 hintClient 0 0 23 23 false).w
          (applysizehints gNoBar scenMon1 hintClient 0 0 23 23 false).h false).w
        = (applysizehints gNoBar scenMon1 hintClient 0 0 23 23 false).w) := by
  decide

lemma ashHints_simple (c : Client) (Hincw : c.incw = 0) (Hinch : c.inch = 0)
    (Hmaxw : c.maxw = 0) (Hmaxh : c.maxh = 0)
    (Hasp : (fblt (fofInt 0) c.mina && fblt (fofInt 0) c.maxa) = false)
    (w h : Int) : ashHints c w h = (cMAX w c.minw, cMAX h c.minh) := by
  unfold ashHints
  dsimp only
  rw [Hasp, Hincw, Hinch, Hmaxw, Hmaxh]
  simp only [Bool.false_eq_true, if_false, ne_eq, not_true_eq_false, ite_false, ite_self]
  split_ifs <;> simp_all [sub_add_cancel]

lemma ash_xy_char (g : Globals) (m : Monitor) (c : Client)
    (x y w h : Int) (i : Bool) :
    ((applysizehints g m c x y w h i).x, (applysizehints g m c x y w h i).y) =
      if i then ashClampInteract g c x y (cMAX 1 w) (cMAX 1 h)
      else ashClampTiled m.wx m.wy m.ww m.wh c x y (cMAX 1 w) (cMAX 1 h) := by
  unfold applysizehints
  dsimp only

lemma ash_w_char (g : Globals) (m : Monitor) (c : Client)
    (x y w h : Int) (i : Bool) (Hincw : c.incw = 0) (Hinch : c.inch = 0)
    (Hmaxw : c.maxw = 0) (Hmaxh : c.maxh = 0)
    (Hasp : (fblt (fofInt 0) c.mina && fblt (fofInt 0) c.maxa) = false) :
    (applysizehints g m c x y w h i).w =
      (if g.resizehints || c.isfloating
       then cMAX (if cMAX 1 w < g.bh then g.bh else cMAX 1 w) c.minw
       else if cMAX 1 w < g.bh then g.bh else cMAX 1 w) := by
  unfold applysizehints
  dsimp only
  rw [ashHints_simple c Hincw Hinch Hmaxw Hmaxh Hasp]
  split <;> rfl

lemma ash_h_char (g : Globals) (m : Monitor) (c : Client)
    (x y w h : Int) (i : Bool) (Hincw : c.incw = 0) (Hinch : c.inch = 0)
    (Hmaxw : c.maxw = 0) (Hmaxh : c.maxh = 0)
    (Hasp : (fblt (fofInt 0) c.mina && fblt (fofInt 0) c.maxa) = false) :
    (applysizehints g m c x y w h i).h =
      (if g.resizehints || c.isfloating
       then cMAX (if cMAX 1 h < g.bh then g.bh else cMAX 1 h) c.minh
       else if cMAX 1 h < g.bh then g.bh else cMAX 1 h) := by
  unfold applysizehints
  dsimp only
  rw [ashHints_simple c Hincw Hinch Hmaxw Hmaxh Hasp]
  split <;> rfl

lemma ashClampTiled_idem (wx wy ww wh : Int) (c : Client) (x y wA hA wB hB : Int)
    (hW : 1 ≤ WIDTH c) (hH : 1 ≤ HEIGHT c) (hbw : 0 ≤ c.bw)
    (hww : 0 < ww) (hwh : 0 < wh)
    (hwA : 1 ≤ wA) (hwB : wA ≤ wB) (hhA : 1 ≤ hA) (hhB : hA ≤ hB) :
    ashClampTiled wx wy ww wh c (ashClampTiled wx wy ww wh c x y wA hA).1
      (ashClampTiled wx wy ww wh c x y wA hA).2 wB hB
      = ashClampTiled wx wy ww wh c x y wA hA := by
  unfold ashClampTiled WIDTH at *
  unfold HEIGHT at *
  dsimp only
  rw [Prod.mk.injEq]
  constructor <;> (split_ifs <;> omega)

lemma ashClampInteract_idem (g : Globals) (c : Client) (x y wA hA wB hB : Int)
    (hW : 1 ≤ WIDTH c) (hH : 1 ≤ HEIGHT c) (hbw : 0 ≤ c.bw)
    (hsw : 0 ≤ g.sw) (hsh : 0 ≤ g.sh)
    (hwA : 1 ≤ wA) (hwB : wA ≤ wB) (hhA : 1 ≤ hA) (hhB : hA ≤ hB) :
    ashClampInteract g c (ashClampInteract g c x y wA hA).1
      (ashClampInteract g c x y wA hA).2 wB hB
      = ashClampInteract g c x y wA hA := by
  unfold ashClampInteract WIDTH at *
  unfold HEIGHT at *
  dsimp only
  rw [Prod.mk.injEq]
  constructor <;> (split_ifs <;> omega)

lemma cMAX_one_of_ge (v : Int) (h : 1 ≤ v) : cMAX 1 v = v := by
  unfold cMAX
  split <;> omega

set_option maxHeartbeats 2000000 in
/-- C3 amended: `applysizehints` is idempotent for clients that report no
    resize increments, no maximum size, and no aspect limits (a client with
    increments and a maximum size, or with aspect limits, can shrink again on
    the second application), assuming a client with positive size, a
    non-negative border, a monitor with a positive working area and a
    non-negative screen size. -/
theorem applysizehints_idem (g : Globals) (m : Monitor) (c : Client)
    (x y w h : Int) (i : Bool)
    (Hincw : c.incw = 0) (Hinch : c.inch = 0)
    (Hmaxw : c.maxw = 0) (Hmaxh : c.maxh = 0)
    (Hasp : (fblt (fofInt 0) c.mina && fblt (fofInt 0) c.maxa) = false)
    (Hcw : 1 ≤ c.w) (Hch : 1 ≤ c.h) (Hbw : 0 ≤ c.bw)
    (Hww : 0 < m.ww) (Hwh : 0 < m.wh) (Hsw : 0 ≤ g.sw) (Hsh : 0 ≤ g.sh) :
    (applysizehints g m c (applysizehints g m c x y w h i).x
        (applysizehints g m c x y w h i).y (applysizehints g m c x y w h i).w
        (applysizehints g m c x y w h i).h i).x = (applysizehints g m c x y w h i).x ∧
    (applysizehints g m c (applysizehints g m c x y w h i).x
        (applysizehints g m c x y w h i).y (applysizehints g m c x y w h i).w
        (applysizehints g m c x y w h i).h i).y = (applysizehints g m c x y w h i).y ∧
    (applysizehints g m c (applysizehints g m c x y w h i).x
        (applysizehints g m c x y w h i).y (applysizehints g m c x y w h i).w
        (applysizehints g m c x y w h i).h i).w = (applysizehints g m c x y w h i).w ∧
    (applysizehints g m c (applysizehints g m c x y w h i).x
        (applysizehints g m c x y w h i).y (applysizehints g m c x y w h i).w
        (applysizehints g m c x y w h i).h i).h = (applysizehints g m c x y w h i).h := by
  have hW : 1 ≤ WIDTH c := by unfold WIDTH; omega
  have hH : 1 ≤ HEIGHT c := by unfold HEIGHT; omega
  have hwchar := ash_w_char g m c x y w h i Hincw Hinch Hmaxw Hmaxh Hasp
  have hhchar := ash_h_char g m c x y w h i Hincw Hinch Hmaxw Hmaxh Hasp
  have hxy1 := ash_xy_char g m c x y w h i
  generalize ha1 : applysizehints g m c x y w h i = a1
  rw [ha1] at hwchar hhchar hxy1
  have hwge : cMAX 1 w ≤ a1.w ∧ 1 ≤ a1.w := by
    rw [hwchar]
    unfold cMAX
    split_ifs <;> omega
  have hhge : cMAX 1 h ≤ a1.h ∧ 1 ≤ a1.h := by
    rw [hhchar]
    unfold cMAX
    split_ifs <;> omega
  have hw2 : (applysizehints g m c a1.x a1.y a1.w a1.h i).w = a1.w := by
    rw [ash_w_char g m c a1.x a1.y a1.w a1.h i Hincw Hinch Hmaxw Hmaxh Hasp]
    rw [cMAX_one_of_ge _ hwge.2]
    rw [hwchar]
    unfold cMAX
    split_ifs <;> omega
  have hh2 : (applysizehints g m c a1.x a1.y a1.w a1.h i).h = a1.h := by
    rw [ash_h_char g m c a1.x a1.y a1.w a1.h i Hincw Hinch Hmaxw Hmaxh Hasp]
    rw [cMAX_one_of_ge _ hhge.2]
    rw [hhchar]
    unfold cMAX
    split_ifs <;> omega
  have hxy2 : ((applysizehints g m c a1.x a1.y a1.w a1.h i).x,
      (applysizehints g m c a1.x a1.y a1.w a1.h i).y) = (a1.x, a1.y) := by
    rw [ash_xy_char g m c a1.x a1.y a1.w a1.h i]
    rw [cMAX_one_of_ge _ hwge.2, cMAX_one_of_ge _ hhge.2]
    cases i with
    | false =>
      simp only [Bool.false_eq_true, if_false] at hxy1 ⊢
      have hx := congrArg Prod.fst hxy1
      have hy := congrArg Prod.snd hxy1
      dsimp only at hx hy
      rw [hx, hy]
      exact ashClampTiled_idem m.wx m.wy m.ww m.wh c x y (cMAX 1 w) (cMAX 1 h)
        a1.w a1.h hW hH Hbw Hww Hwh (by unfold cMAX; split <;> omega) hwge.1
        (by unfold cMAX; split <;> omega) hhge.1
    | true =>
      simp only [if_true] at hxy1 ⊢
      have hx := congrArg Prod.fst hxy1
      have hy := congrArg Prod.snd hxy1
      dsimp only at hx hy
      rw [hx, hy]
      exact ashClampInteract_idem g c x y (cMAX 1 w) (cMAX 1 h)
        a1.w a1.h hW hH Hbw Hsw Hsh (by unfold cMAX; split <;> omega) hwge.1
        (by unfold cMAX; split <;> omega) hhge.1
  exact ⟨congrArg Prod.fst hxy2, congrArg Prod.snd hxy2, hw2, hh2⟩

/-- Witness for C3 at a concrete hintless client and rectangle. -/
theorem applysizehints_idem_witness :
    (applysizehints gNoBar scenMon1 (plainClient 1)
        (applysizehints gNoBar scenMon1 (plainClient 1) 5 7 400 300 false).x
        (applysizehints gNoBar scenMon1 (plainClient 1) 5 7 400 300 false).y
        (applysizehints gNoBar scenMon1 (plainClient 1) 5 7 400 300 false).w
        (applysizehints gNoBar scenMon1 (plainClient 1) 5 7 400 300 false).h false).w
      = (applysizehints gNoBar scenMon1 (plainClient 1) 5 7 400 300 false).w :=
  (applysizehints_idem gNoBar scenMon1 (plainClient 1) 5 7 400 300 false
    (by decide) (by decide) (by decide) (by decide) (by decide) (by decide)
    (by decide) (by decide) (by decide) (by decide) (by decide) (by decide)).2.2.1

/-! ## C2: the setfullscreen round trip -/

/-- A tiled client parked at an arbitrary geometry before going fullscreen. -/
def rtClient : Client := { plainClient 1 with x := 100, y := 100, w := 50, h := 50 }

/-- The scenario monitor holding the tiled client. -/
def monRT : Monitor :=
  { scenMon with clients := [rtClient], stack := [1], sel := some 1 }

/-- C2 counterexample: for a tiled client the fullscreen round trip does NOT
    restore the geometry: the off branch restores the saved rectangle and
    then calls `arrange`, whose `tile` pass immediately moves the tiled
    client to its layout slot (10,10,1900,1060), not back to (100,100,50,50). -/
theorem setfullscreen_roundtrip_cex :
    ((findClient (setfullscreen gNoBar (setfullscreen gNoBar monRT 1 true) 1 false).clients 1).map
        (fun c => (c.x, c.y, c.w, c.h))) = some (10, 10, 1900, 1060) ∧
    ((findClient (setfullscreen gNoBar (setfullscreen gNoBar monRT 1 true) 1 false).clients 1).map
        (fun c => (c.x, c.y, c.w, c.h))) ≠ some (100, 100, 50, 50) := by
  decide

/-- The composite effect of the fullscreen round trip on the client record:
    geometry, border and floating state return to their pre-call values; only
    the saved-state fields and `isfullscreen` are (re)written. -/
lemma fsRoundClient (m : Monitor) (c : Client) :
    fsOffClient (fsOnClient m c)
      = { c with oldx := c.x, oldy := c.y, oldw := c.w, oldh := c.h,
                 oldbw := c.bw, oldstate := c.isfloating, isfullscreen := false } := rfl

lemma findClient_updateClient_fix (cs : List Client) (d q : Nat) (c2 : Client)
    (f : Client → Client) (hcid : ∀ c, (f c).cid = c.cid) (hfix : f c2 = c2)
    (h : findClient cs q = some c2) :
    findClient (updateClient cs d f) q = some c2 := by
  induction cs with
  | nil => exact Option.noConfusion h
  | cons a rest ih =>
    simp only [findClient] at h
    simp only [updateClient]
    by_cases had : a.cid = d
    · rw [if_pos had]
      simp only [findClient, hcid]
      by_cases haq : a.cid = q
      · rw [if_pos haq] at h
        cases h
        rw [if_pos haq, hfix]
      · rw [if_neg haq] at h
        rw [if_neg haq]
        exact h
    · rw [if_neg had]
      simp only [findClient]
      by_cases haq : a.cid = q
      · rw [if_pos haq] at h
        rw [if_pos haq]
        exact h
      · rw [if_neg haq] at h
        rw [if_neg haq]
        exact ih h

lemma findClient_showhideGo_fix (g : Globals) (M : Monitor) (stack : List Nat)
    (cs : List Client) (q : Nat) (c2 : Client)
    (hfix : showhideStep g M c2 = c2) (h : findClient cs q = some c2) :
    findClient (showhideGo g M stack cs) q = some c2 := by
  induction stack generalizing cs with
  | nil => exact h
  | cons d rest ih =>
    simp only [showhideGo]
    exact ih _ (findClient_updateClient_fix cs d q c2 (showhideStep g M)
      (showhideStep_cid g M) hfix h)

lemma findClient_tileLoop_fix (g : Globals) (M : Monitor) (n mw : Nat)
    (i my ty : Nat) (cs : List Client) (q : Nat) (c2 : Client)
    (hfl : c2.isfloating = true) (h : findClient cs q = some c2) :
    findClient (tileLoop g M n mw i my ty cs) q = some c2 := by
  induction cs generalizing i my ty with
  | nil => exact Option.noConfusion h
  | cons a rest ih =>
    simp only [findClient] at h
    simp only [tileLoop]
    split
    · simp only [findClient]
      by_cases haq : a.cid = q
      · rw [if_pos haq] at h
        rw [if_pos haq]
        exact h
      · rw [if_neg haq] at h
        rw [if_neg haq]
        exact ih _ _ _ h
    · rename_i hguard
      by_cases haq : a.cid = q
      · rw [if_pos haq] at h
        cases h
        rw [hfl] at hguard
        simp at hguard
      · rw [if_neg haq] at h
        split
        · simp only [findClient, resize_cid]
          rw [if_neg haq]
          exact ih _ _ _ h
        · simp only [findClient, resize_cid]
          rw [if_neg haq]
          exact ih _ _ _ h

lemma findClient_arrange_fix (g : Globals) (M : Monitor) (q : Nat) (c2 : Client)
    (hfl : c2.isfloating = true) (hfix : showhideStep g M c2 = c2)
    (h : findClient M.clients q = some c2) :
    findClient (arrange g M).clients q = some c2 := by
  unfold arrange
  have hsh : findClient (showhideM g M).clients q = some c2 :=
    findClient_showhideGo_fix g M M.stack M.clients q c2 hfix h
  unfold tile
  dsimp only
  split
  · exact hsh
  · exact findClient_tileLoop_fix g _ _ _ _ _ _ _ q c2 hfl hsh

/-- C2 amended: for a client that is not already fullscreen,
    `setfullscreen(c, true)` followed by `setfullscreen(c, false)` always
    restores `isfloating` and `bw`; it also restores the geometry
    (x, y, w, h) provided the client is floating and its geometry is a fixed
    point of size-hint application (a tiled client is instead re-tiled by the
    final `arrange`, and a floating client whose geometry the hints would
    alter is re-resized by `showhide`). -/
theorem setfullscreen_roundtrip (g : Globals) (m : Monitor) (cid : Nat) (c : Client)
    (hfc : findClient m.clients cid = some c) (hfs : c.isfullscreen = false) :
    ((findClient (setfullscreen g (setfullscreen g m cid true) cid false).clients cid).map
        (fun d => (d.isfloating, d.bw))) = some (c.isfloating, c.bw) ∧
    (c.isfloating = true →
      (applysizehints g m c c.x c.y c.w c.h false).changed = false →
      ((findClient (setfullscreen g (setfullscreen g m cid true) cid false).clients cid).map
          (fun d => (d.x, d.y, d.w, d.h))) = some (c.x, c.y, c.w, c.h)) := by
  have hcid : c.cid = cid := findClient_cid m.clients cid c hfc
  have hfcX : findClient (setfullscreen g m cid true).clients cid = some (fsOnClient m c) := by
    rw [setfullscreen_on g m cid c hfc hfs]
    exact findClient_updateClient_found m.clients cid c _ hfc hcid
  have hoff : setfullscreen g (setfullscreen g m cid true) cid false
      = arrange g { setfullscreen g m cid true with
          clients := updateClient (setfullscreen g m cid true).clients cid
            (fun _ => fsOffClient (fsOnClient m c)) } :=
    setfullscreen_off g _ cid (fsOnClient m c) hfcX rfl
  have hfcM : findClient
      ({ setfullscreen g m cid true with
          clients := updateClient (setfullscreen g m cid true).clients cid
            (fun _ => fsOffClient (fsOnClient m c)) } : Monitor).clients cid
      = some (fsOffClient (fsOnClient m c)) :=
    findClient_updateClient_found _ cid (fsOnClient m c) _ hfcX hcid
  constructor
  · rw [hoff]
    rw [findClient_arrange_proj (fun d => (d.isfloating, d.bw)) (fun _ _ _ _ _ => rfl)]
    rw [hfcM]
    rfl
  · intro hfl hstable
    have hfl2 : (fsOffClient (fsOnClient m c)).isfloating = true := by
      rw [fsRoundClient]
      exact hfl
    have hfix : showhideStep g
        { setfullscreen g m cid true with
          clients := updateClient (setfullscreen g m cid true).clients cid
            (fun _ => fsOffClient (fsOnClient m c)) } (fsOffClient (fsOnClient m c))
        = fsOffClient (fsOnClient m c) := by
      unfold showhideStep
      split
      · rw [if_pos (by simp [hfl2, fsRoundClient, hfl])]
        unfold resize
        dsimp only
        have htrans : applysizehints g
            { setfullscreen g m cid true with
              clients := updateClient (setfullscreen g m cid true).clients cid
                (fun _ => fsOffClient (fsOnClient m c)) }
            (fsOffClient (fsOnClient m c))
            (fsOffClient (fsOnClient m c)).x (fsOffClient (fsOnClient m c)).y
            (fsOffClient (fsOnClient m c)).w (fsOffClient (fsOnClient m c)).h false
            = applysizehints g m c c.x c.y c.w c.h false := by
          rw [setfullscreen_on g m cid c hfc hfs]
          rfl
        rw [htrans, hstable]
        simp
      · rfl
    have harr := findClient_arrange_fix g
      { setfullscreen g m cid true with
        clients := updateClient (setfullscreen g m cid true).clients cid
          (fun _ => fsOffClient (fsOnClient m c)) }
      cid (fsOffClient (fsOnClient m c)) hfl2 hfix hfcM
    rw [hoff, harr]
    rw [fsRoundClient]
    rfl

/-- Witness for C2: a floating, hint-stable client gets its floating flag,
    border and geometry back after the round trip. -/
def wtClient : Client :=
  { plainClient 1 with isfloating := true, x := 50, y := 60, w := 70, h := 80 }

/-- The scenario monitor holding the floating client. -/
def monWT : Monitor :=
  { scenMon with clients := [wtClient], stack := [1], sel := some 1 }

/-- Witness for C2 at the concrete floating client. -/
theorem setfullscreen_roundtrip_witness :
    findClient monWT.clients 1 = some wtClient ∧ wtClient.isfullscreen = false ∧
    wtClient.isfloating = true ∧
    (applysizehints gNoBar monWT wtClient wtClient.x wtClient.y wtClient.w wtClient.h
        false).changed = false ∧
    ((findClient (setfullscreen gNoBar (setfullscreen gNoBar monWT 1 true) 1 false).clients 1).map
        (fun d => (d.x, d.y, d.w, d.h))) = some (wtClient.x, wtClient.y, wtClient.w, wtClient.h) :=
  ⟨rfl, rfl, rfl, by decide,
    (setfullscreen_roundtrip gNoBar monWT 1 wtClient rfl rfl).2 rfl (by decide)⟩
